import Mathlib

/-!
A shallow embedding of the partition-routing core of pg_pathman's
`src/pl_funcs.c`, together with proofs about the claims of the spec.

Modelling conventions:
* `Oid` is `Nat`; partition-key values are `Int` (the injected comparator of
  the source, `fill_type_cmp_fmgr_info` + `FunctionCall2`, is instantiated
  with the standard three-way order on `Int`; the engine only consumes the
  comparator's sign, so this is faithful for every orderable key domain).
* `get_pathman_relation_info` becomes an explicit catalog map
  `Oid → Option PartRelationInfo`; a `none` result is the C `NULL` pointer.
* C `elog(ERROR, ...)` becomes `Except.error` with a typed error; an
  out-of-bounds array read (C undefined behavior) is recorded as the
  distinguished error `OutOfBoundsRead`.
* Lock traffic and delegate calls of `find_or_create_range_partition` are
  recorded in an explicit event trace so that lock-ordering and
  release-on-every-path properties can be stated.
-/

abbrev Oid := Nat

/-- One range entry `[min, max)` owned by child partition `child_oid`
(struct `RangeEntry` of the source). -/
structure RangeEntry where
  child_oid : Oid
  min : Int
  max : Int
deriving DecidableEq, Repr

/-- Partitioning strategy (`parttype` of the source). -/
inductive PartType
  | PT_RANGE
  | PT_HASH
deriving DecidableEq, Repr

/-- Snapshot of one relation's partitioning metadata
(`PartRelationInfo` of the source; `PrelGetRangesArray` is the `ranges`
field, `PrelChildrenCount` is `ranges.length`). -/
structure PartRelationInfo where
  parttype : PartType
  ranges : List RangeEntry
deriving DecidableEq, Repr

/-- Typed failures raised by the wrapper functions via `elog(ERROR, ...)`.
`OutOfBoundsRead` marks a place where the C code would read past the end
of the ranges array (undefined behavior), which has no typed counterpart
in the source. -/
inductive PathmanError
  | NotPartitioned
  | NotRangePartitioned
  | NoSuchPartition
  | PartitionNotFound
  | InvalidIndex
  | InvalidPartitionCount
  | DdlError
  | OutOfBoundsRead
deriving DecidableEq, Repr

/-- Result of the range search (`search_rangerel_result` of the source:
`SEARCH_RANGEREL_FOUND`, `SEARCH_RANGEREL_GAP`, and the remaining
out-of-range case that `find_or_create_range_partition` treats in its
`else` branch). `Found` carries the owner's oid (the source returns it
through the `found_rentry` out-parameter). -/
inductive SearchResult
  | Found (child_oid : Oid)
  | Gap
  | OutOfRange
deriving DecidableEq, Repr

/-- Helper of `find_owner`: scan the suffix of the range list knowing the
value is at or above the `max` of every previously passed entry, so a value
below the head's `min` falls in a gap between two entries. -/
def find_owner_from (v : Int) : List RangeEntry → SearchResult
  | [] => SearchResult.OutOfRange
  | r :: rest =>
      if v < r.min then SearchResult.Gap
      else if v < r.max then SearchResult.Found r.child_oid
      else find_owner_from v rest

/-- Modelled from the spec: the Range Search Engine's
`find_owner(descriptor, value)` — the source calls it
`search_range_partition_eq`, whose body is not under `src/`. Semantics per
spec section 4.2: `min` inclusive, `max` exclusive; a value below
`ranges[0].min` or at/above the last `max` is out of range; a value
strictly between two entries is a gap. (The spec's binary search is
modelled by an equivalent scan; only the result matters to the callers.) -/
def find_owner (v : Int) : List RangeEntry → SearchResult
  | [] => SearchResult.OutOfRange
  | r :: rest =>
      if v < r.min then SearchResult.OutOfRange
      else if v < r.max then SearchResult.Found r.child_oid
      else find_owner_from v rest

/-- The descriptor invariant of spec section 3: each entry is a nonempty
half-open interval and entries are sorted with `ranges[i].max <= ranges[i+1].min`. -/
def rangesSorted : List RangeEntry → Bool
  | [] => true
  | [r] => decide (r.min < r.max)
  | r :: r2 :: rest =>
      decide (r.min < r.max) && decide (r.max ≤ r2.min) && rangesSorted (r2 :: rest)

/-- Events recorded by the creation coordinator: lock acquisitions and
releases of `pmstate->load_config_lock` (config) and
`pmstate->edit_partitions_lock` (edit), and calls of the external DDL
delegate `create_partitions`. -/
inductive Event
  | acquire_config
  | acquire_edit
  | release_config
  | release_edit
  | create_call (parent : Oid) (value : Int)
deriving DecidableEq, Repr

/-- Embedding of `find_or_create_range_partition` (src/src/pl_funcs.c lines
218-278). Returns the result together with the trace of lock and delegate
events. Structure mirrors the source exactly:
* `NULL` prel → return SQL NULL (`Except.ok none`), no events;
* initial search `FOUND` → return the owner's oid, no locks taken;
* `GAP` → return SQL NULL, no creation;
* otherwise acquire config lock then edit lock, re-run the search against
  the SAME `prel` snapshot (the source does not reload it; see its FIXME
  comment "useless double-checked lock (no new data)" at line 254); on
  `FOUND` release config then edit and return; else call the delegate —
  a delegate failure is an `elog(ERROR)` non-local exit, so the two
  `LWLockRelease` calls at lines 273-274 are NOT executed on that path —
  and on success release config then edit and return the new oid. -/
def find_or_create_range_partition
    (catalog : Oid → Option PartRelationInfo)
    (create_partitions : Oid → Int → Except PathmanError Oid)
    (parent_oid : Oid) (value : Int) :
    Except PathmanError (Option Oid) × List Event :=
  match catalog parent_oid with
  | none => (Except.ok none, [])
  | some prel =>
    match find_owner value prel.ranges with
    | SearchResult.Found child => (Except.ok (some child), [])
    | SearchResult.Gap => (Except.ok none, [])
    | SearchResult.OutOfRange =>
      match find_owner value prel.ranges with
      | SearchResult.Found child =>
          (Except.ok (some child),
           [Event.acquire_config, Event.acquire_edit,
            Event.release_config, Event.release_edit])
      | _ =>
        match create_partitions parent_oid value with
        | Except.error e =>
            (Except.error e,
             [Event.acquire_config, Event.acquire_edit,
              Event.create_call parent_oid value])
        | Except.ok child =>
            (Except.ok (some child),
             [Event.acquire_config, Event.acquire_edit,
              Event.create_call parent_oid value,
              Event.release_config, Event.release_edit])

/-- Embedding of `get_range_by_part_oid` (lines 286-321): `NULL` prel is an
error; otherwise a linear scan for the child oid, returning its bounds. -/
def get_range_by_part_oid
    (catalog : Oid → Option PartRelationInfo)
    (parent_oid child_oid : Oid) : Except PathmanError (Int × Int) :=
  match catalog parent_oid with
  | none => Except.error PathmanError.NotPartitioned
  | some prel =>
    match prel.ranges.find? (fun r => r.child_oid == child_oid) with
    | some r => Except.ok (r.min, r.max)
    | none => Except.error PathmanError.NoSuchPartition

/-- Embedding of `get_range_by_idx` (lines 330-363). The source first
rejects any index with `abs(idx) >= PrelChildrenCount(prel)` ("Partition #%d
does not exist"), THEN maps `-1` to the last index, and only then rejects
remaining negative indices ("Negative indices other than -1 ... are not
allowed"). The order of these checks is load-bearing. -/
def get_range_by_idx
    (catalog : Oid → Option PartRelationInfo)
    (parent_oid : Oid) (idx : Int) : Except PathmanError (Int × Int) :=
  match catalog parent_oid with
  | none => Except.error PathmanError.NotPartitioned
  | some prel =>
    if prel.ranges.length ≤ idx.natAbs then
      Except.error PathmanError.PartitionNotFound
    else if idx = -1 then
      match prel.ranges.get? (prel.ranges.length - 1) with
      | some r => Except.ok (r.min, r.max)
      | none => Except.error PathmanError.OutOfBoundsRead
    else if idx < -1 then
      Except.error PathmanError.InvalidIndex
    else
      match prel.ranges.get? idx.toNat with
      | some r => Except.ok (r.min, r.max)
      | none => Except.error PathmanError.OutOfBoundsRead

/-- Embedding of `get_min_range_value` (lines 368-388). The source guards
the "not partitioned by RANGE" error behind a SECOND null test of `prel`
(`if (prel->parttype != PT_RANGE) if (!prel) elog(ERROR, ...)`), which is
always false at that point, so the error can never fire; control then falls
through to read `ranges[0].min` regardless of the strategy, and without any
emptiness check (`ranges[0]` on an empty set is an out-of-bounds read). -/
def get_min_range_value
    (catalog : Oid → Option PartRelationInfo)
    (parent_oid : Oid) : Except PathmanError Int :=
  match catalog parent_oid with
  | none => Except.error PathmanError.NotPartitioned
  | some prel =>
    if prel.parttype ≠ PartType.PT_RANGE ∧ (some prel).isNone then
      Except.error PathmanError.NotRangePartitioned
    else
      match prel.ranges.head? with
      | some r => Except.ok r.min
      | none => Except.error PathmanError.OutOfBoundsRead

/-- Embedding of `get_max_range_value` (lines 393-413), with the same dead
inner null test as `get_min_range_value` and the unguarded read of
`ranges[PrelChildrenCount(prel) - 1].max`. -/
def get_max_range_value
    (catalog : Oid → Option PartRelationInfo)
    (parent_oid : Oid) : Except PathmanError Int :=
  match catalog parent_oid with
  | none => Except.error PathmanError.NotPartitioned
  | some prel =>
    if prel.parttype ≠ PartType.PT_RANGE ∧ (some prel).isNone then
      Except.error PathmanError.NotRangePartitioned
    else
      match prel.ranges.getLast? with
      | some r => Except.ok r.max
      | none => Except.error PathmanError.OutOfBoundsRead

/-- The scan of `check_overlap`: probe `[p1, p2)` intersects entry `r` when
`cmp(p1, r.max) < 0` and `cmp(p2, r.min) > 0`; first hit returns true. -/
def overlap_scan (p1 p2 : Int) : List RangeEntry → Bool
  | [] => false
  | r :: rest =>
      if p1 < r.max ∧ p2 > r.min then true else overlap_scan p1 p2 rest

/-- Embedding of `check_overlap` (lines 419-462), including its dead inner
null test before the "not partitioned by RANGE" error (same pattern as
`get_min_range_value`). -/
def check_overlap
    (catalog : Oid → Option PartRelationInfo)
    (parent_oid : Oid) (p1 p2 : Int) : Except PathmanError Bool :=
  match catalog parent_oid with
  | none => Except.error PathmanError.NotPartitioned
  | some prel =>
    if prel.parttype ≠ PartType.PT_RANGE ∧ (some prel).isNone then
      Except.error PathmanError.NotRangePartitioned
    else
      Except.ok (overlap_scan p1 p2 prel.ranges)

/-- Modelled from the spec: `hash_to_part_index` — declared in `pathman.h`
and wrapped by `get_hash_part_idx` (lines 482-489), but its body is not
under `src/`. Spec section 4.3: `index = hash_value mod partition_count`
with unsigned modulo; a zero partition count is the division-by-zero
failure `InvalidPartitionCount`. -/
def hash_to_part_index (value part_count : Nat) : Except PathmanError Nat :=
  if part_count = 0 then Except.error PathmanError.InvalidPartitionCount
  else Except.ok (value % part_count)

/-- Embedding of the wrapper `get_hash_part_idx` (lines 482-489): it just
delegates to `hash_to_part_index`. -/
def get_hash_part_idx (value part_count : Nat) : Except PathmanError Nat :=
  hash_to_part_index value part_count

/-- Shared state of the concurrency model for the creation coordinator:
the externally persisted catalog, the oid allocator, and a counter of
`create_partitions` delegate calls. -/
structure SharedState where
  catalog : Oid → Option PartRelationInfo
  next_oid : Oid
  create_calls : Nat

/-- Modelled from the spec: the external DDL delegate
`create_partitions(parent, value, value_type)` (section 6) — its body is
not under `src/`. It durably registers a new range entry covering `value`
before returning, and returns the fresh child oid. -/
def create_partitions_model (st : SharedState) (parent : Oid) (v : Int) :
    SharedState × Oid :=
  let child := st.next_oid
  let newCatalog : Oid → Option PartRelationInfo := fun oid =>
    if oid = parent then
      match st.catalog parent with
      | some prel =>
          some ⟨prel.parttype, prel.ranges ++ [⟨child, v, v + 1⟩]⟩
      | none => st.catalog oid
    else st.catalog oid
  (⟨newCatalog, st.next_oid + 1, st.create_calls + 1⟩, child)

/-- One caller's `find_or_create_range_partition` call in the concurrency
model, with the control flow of src lines 237-277: `prel` is the snapshot
this caller obtained from `get_pathman_relation_info` before taking any
lock, and — exactly as the source does (FIXME at line 254: "useless
double-checked lock (no new data)") — the re-probe inside the critical
section runs against that SAME snapshot, not against a reload from the
shared catalog. The critical section (between the two lock acquisitions
and releases) is executed atomically by the race driver, which is what
the exclusive `edit_partitions_lock` guarantees. -/
def caller_session (prel : PartRelationInfo) (parent : Oid) (v : Int)
    (st : SharedState) : SharedState × Option Oid :=
  match find_owner v prel.ranges with
  | SearchResult.Found child => (st, some child)
  | SearchResult.Gap => (st, none)
  | SearchResult.OutOfRange =>
    match find_owner v prel.ranges with
    | SearchResult.Found child => (st, some child)
    | _ =>
      let res := create_partitions_model st parent v
      (res.1, some res.2)

/-- Two callers race `find_or_create(v)`: both obtain their descriptor
snapshot from the initial catalog (the probe phase takes no locks), then
their lock-protected critical sections run serialized, caller A first,
caller B second. This is a legal schedule under the source's lock
protocol. Returns the final shared state and the two callers' results. -/
def race2 (parent : Oid) (v : Int) (st0 : SharedState) :
    SharedState × Option Oid × Option Oid :=
  match st0.catalog parent with
  | none => (st0, none, none)
  | some prel =>
    let resA := caller_session prel parent v st0
    let resB := caller_session prel parent v resA.1
    (resB.1, resA.2, resB.2)

/- Concrete fixtures used by witnesses and counterexamples. -/

/-- The spec's running example: ranges `[0,10), [10,20), [30,40)` with a
gap between the second and third entries. -/
def prelDemo : PartRelationInfo :=
  ⟨PartType.PT_RANGE, [⟨100, 0, 10⟩, ⟨101, 10, 20⟩, ⟨102, 30, 40⟩]⟩

def catDemo : Oid → Option PartRelationInfo :=
  fun oid => if oid = 1 then some prelDemo else none

/-- A creation delegate that always succeeds with a fixed oid. -/
def createOk : Oid → Int → Except PathmanError Oid :=
  fun _ _ => Except.ok 999

/-- A creation delegate that always fails with a DDL error. -/
def createFail : Oid → Int → Except PathmanError Oid :=
  fun _ _ => Except.error PathmanError.DdlError

/-- A single-range RANGE relation, the initial state of the race scenario. -/
def prelOne : PartRelationInfo := ⟨PartType.PT_RANGE, [⟨100, 0, 10⟩]⟩

def raceSt0 : SharedState :=
  ⟨fun oid => if oid = 1 then some prelOne else none, 101, 0⟩

/-- The shared state after caller A's session in the race scenario: the
catalog a fresh reload would observe when caller B enters its critical
section. -/
def raceStA : SharedState := (caller_session prelOne 1 15 raceSt0).1

/-- The descriptor that a fresh reload of relation 1 yields at that point:
caller A has registered `[15,16)` owned by the new child 101. -/
def prelFresh : PartRelationInfo :=
  ⟨PartType.PT_RANGE, [⟨100, 0, 10⟩, ⟨101, 15, 16⟩]⟩

/-- A HASH-partitioned relation (with the ranges array the C code would
read anyway) and a RANGE relation with an empty range set. -/
def prelHash : PartRelationInfo := ⟨PartType.PT_HASH, [⟨100, 0, 10⟩]⟩

def prelEmpty : PartRelationInfo := ⟨PartType.PT_RANGE, []⟩

def catMixed : Oid → Option PartRelationInfo :=
  fun oid =>
    if oid = 1 then some prelHash
    else if oid = 2 then some prelEmpty
    else none

/-- A RANGE relation with exactly two entries, for the index queries. -/
def prelTwo : PartRelationInfo :=
  ⟨PartType.PT_RANGE, [⟨100, 0, 10⟩, ⟨101, 10, 20⟩]⟩

def catTwo : Oid → Option PartRelationInfo :=
  fun oid => if oid = 1 then some prelTwo else none

/-- A catalog with no partitioned relations at all. -/
def catNone : Oid → Option PartRelationInfo := fun _ => none

instance {ε α : Type} [DecidableEq ε] [DecidableEq α] : DecidableEq (Except ε α) :=
  fun a b =>
    match a, b with
    | Except.error e1, Except.error e2 =>
        decidable_of_iff (e1 = e2)
          ⟨fun h => by rw [h], fun h => by injection h⟩
    | Except.error _, Except.ok _ => isFalse (fun h => Except.noConfusion h)
    | Except.ok _, Except.error _ => isFalse (fun h => Except.noConfusion h)
    | Except.ok a1, Except.ok a2 =>
        decidable_of_iff (a1 = a2)
          ⟨fun h => by rw [h], fun h => by injection h⟩

/-! Helper lemmas about the descriptor invariant and the range search. -/

lemma rangesSorted_tail (r : RangeEntry) (l : List RangeEntry)
    (h : rangesSorted (r :: l) = true) : rangesSorted l = true := by
  cases l with
  | nil => rfl
  | cons r2 rest =>
    simp only [rangesSorted, Bool.and_eq_true] at h
    exact h.2

lemma rangesSorted_head_lt (r : RangeEntry) (l : List RangeEntry)
    (h : rangesSorted (r :: l) = true) : r.min < r.max := by
  cases l with
  | nil =>
    simp only [rangesSorted, decide_eq_true_eq] at h
    exact h
  | cons r2 rest =>
    simp only [rangesSorted, Bool.and_eq_true, decide_eq_true_eq] at h
    exact h.1.1

lemma rangesSorted_mem_lt (l : List RangeEntry)
    (h : rangesSorted l = true) : ∀ x ∈ l, x.min < x.max := by
  induction l with
  | nil => intro x hx; cases hx
  | cons r rest ih =>
    intro x hx
    rcases List.mem_cons.mp hx with rfl | hx2
    · exact rangesSorted_head_lt x rest h
    · exact ih (rangesSorted_tail r rest h) x hx2

lemma rangesSorted_head_max_le (r : RangeEntry) (l : List RangeEntry)
    (h : rangesSorted (r :: l) = true) : ∀ x ∈ l, r.max ≤ x.min := by
  induction l generalizing r with
  | nil => intro x hx; cases hx
  | cons r2 rest ih =>
    intro x hx
    have h1 : r.max ≤ r2.min := by
      simp only [rangesSorted, Bool.and_eq_true, decide_eq_true_eq] at h
      exact h.1.2
    rcases List.mem_cons.mp hx with rfl | hx2
    · exact h1
    · have h2 : r2.min < r2.max :=
        rangesSorted_head_lt r2 rest (rangesSorted_tail r (r2 :: rest) h)
      have h3 : r2.max ≤ x.min :=
        ih r2 (rangesSorted_tail r (r2 :: rest) h) x hx2
      omega

lemma find_owner_from_gap (v : Int) (l : List RangeEntry)
    (hno : ∀ x ∈ l, v < x.min ∨ x.max ≤ v)
    (habove : ∃ x ∈ l, v < x.min) :
    find_owner_from v l = SearchResult.Gap := by
  induction l with
  | nil => simp at habove
  | cons r rest ih =>
    by_cases hlt : v < r.min
    · simp [find_owner_from, hlt]
    · have hmax : r.max ≤ v := by
        rcases hno r (List.mem_cons_self r rest) with h | h
        · exact absurd h hlt
        · exact h
      have hnm : ¬ v < r.max := by omega
      simp only [find_owner_from, if_neg hlt, if_neg hnm]
      apply ih
      · intro x hx; exact hno x (List.mem_cons_of_mem r hx)
      · rcases habove with ⟨x, hx, hxv⟩
        rcases List.mem_cons.mp hx with rfl | hx2
        · exact absurd hxv hlt
        · exact ⟨x, hx2, hxv⟩

/-- On a well-formed descriptor, a value with no owning entry that has both
a range entirely below it and a range entirely above it is classified as a
gap by the range search. -/
lemma find_owner_gap (v : Int) (l : List RangeEntry)
    (hs : rangesSorted l = true)
    (hno : ∀ x ∈ l, v < x.min ∨ x.max ≤ v)
    (hbelow : ∃ x ∈ l, x.max ≤ v)
    (habove : ∃ x ∈ l, v < x.min) :
    find_owner v l = SearchResult.Gap := by
  cases l with
  | nil => simp at hbelow
  | cons r rest =>
    have hrlt : r.min < r.max := rangesSorted_head_lt r rest hs
    have hnotlt : ¬ v < r.min := by
      intro hlt
      rcases hbelow with ⟨x, hx, hxv⟩
      rcases List.mem_cons.mp hx with rfl | hx2
      · omega
      · have h1 : r.max ≤ x.min := rangesSorted_head_max_le r rest hs x hx2
        have h2 : x.min < x.max :=
          rangesSorted_mem_lt rest (rangesSorted_tail r rest hs) x hx2
        omega
    have hmax : r.max ≤ v := by
      rcases hno r (List.mem_cons_self r rest) with h | h
      · exact absurd h hnotlt
      · exact h
    have hnm : ¬ v < r.max := by omega
    simp only [find_owner, if_neg hnotlt, if_neg hnm]
    apply find_owner_from_gap
    · intro x hx; exact hno x (List.mem_cons_of_mem r hx)
    · rcases habove with ⟨x, hx, hxv⟩
      rcases List.mem_cons.mp hx with rfl | hx2
      · exact absurd hxv hnotlt
      · exact ⟨x, hx2, hxv⟩

/-! Claim theorems. -/

/-- Claim C2: for every RANGE-partitioned relation and every value that
falls strictly between two existing range entries (a gap with finite
neighbors: no entry owns the value, some entry lies entirely below it and
some entry lies entirely above it), the plain `find_or_create` lookup
returns SQL NULL (`Except.ok none`) and makes no creation delegate call and
takes no locks (empty event trace). -/
theorem C2_gap_lookup_returns_none
    (catalog : Oid → Option PartRelationInfo)
    (create : Oid → Int → Except PathmanError Oid)
    (parent : Oid) (prel : PartRelationInfo) (v : Int)
    (hcat : catalog parent = some prel)
    (hR : prel.parttype = PartType.PT_RANGE)
    (hs : rangesSorted prel.ranges = true)
    (hno : ∀ x ∈ prel.ranges, v < x.min ∨ x.max ≤ v)
    (hbelow : ∃ x ∈ prel.ranges, x.max ≤ v)
    (habove : ∃ x ∈ prel.ranges, v < x.min) :
    find_or_create_range_partition catalog create parent v =
      (Except.ok none, []) := by
  have h1 := find_owner_gap v prel.ranges hs hno hbelow habove
  unfold find_or_create_range_partition
  simp only [hcat, h1]

/-- Witness for C2 at the spec's running example `[0,10), [10,20), [30,40)`
with the gap value 25. -/
theorem C2_gap_lookup_returns_none_witness :
    catDemo 1 = some prelDemo ∧
    find_or_create_range_partition catDemo createOk 1 25 =
      (Except.ok none, []) :=
  ⟨by decide,
   C2_gap_lookup_returns_none catDemo createOk 1 prelDemo 25
     (by decide) (by decide) (by decide) (by decide) (by decide) (by decide)⟩

lemma overlap_scan_iff (p1 p2 : Int) (l : List RangeEntry) :
    overlap_scan p1 p2 l = true ↔ ∃ r ∈ l, p1 < r.max ∧ p2 > r.min := by
  induction l with
  | nil => simp [overlap_scan]
  | cons r rest ih =>
    by_cases h : p1 < r.max ∧ p2 > r.min
    · constructor
      · intro _
        exact ⟨r, List.mem_cons_self r rest, h⟩
      · intro _
        simp [overlap_scan, h]
    · simp only [overlap_scan, if_neg h]
      rw [ih]
      constructor
      · rintro ⟨x, hx, hxx⟩
        exact ⟨x, List.mem_cons_of_mem r hx, hxx⟩
      · rintro ⟨x, hx, hxx⟩
        rcases List.mem_cons.mp hx with rfl | hx2
        · exact absurd hxx h
        · exact ⟨x, hx2, hxx⟩

/-- Claim C6: `check_overlap` answers true exactly when some existing range
entry `[min, max)` satisfies `probe_min < max` and `probe_max > min` (the
half-open intersection rule); a probe that exactly fills a gap therefore
reports no overlap. -/
theorem C6_overlaps_iff
    (catalog : Oid → Option PartRelationInfo)
    (parent : Oid) (prel : PartRelationInfo) (p1 p2 : Int)
    (hcat : catalog parent = some prel)
    (hR : prel.parttype = PartType.PT_RANGE) :
    check_overlap catalog parent p1 p2 = Except.ok true ↔
      ∃ r ∈ prel.ranges, p1 < r.max ∧ p2 > r.min := by
  unfold check_overlap
  simp only [hcat]
  have hcond : ¬ (prel.parttype ≠ PartType.PT_RANGE ∧ (some prel).isNone = true) := by
    simp
  rw [if_neg hcond]
  have hinj : (Except.ok (overlap_scan p1 p2 prel.ranges) :
      Except PathmanError Bool) = Except.ok true ↔
      overlap_scan p1 p2 prel.ranges = true := by
    constructor
    · intro h; injection h
    · intro h; rw [h]
  rw [hinj, overlap_scan_iff]

/-- Witness for C6: the probe `[20,30)` exactly filling the gap of the
running example satisfies the characterization (and indeed no entry
intersects it). -/
theorem C6_overlaps_iff_witness :
    catDemo 1 = some prelDemo ∧
    (check_overlap catDemo 1 20 30 = Except.ok true ↔
      ∃ r ∈ prelDemo.ranges, 20 < r.max ∧ 30 > r.min) ∧
    check_overlap catDemo 1 20 30 = Except.ok false ∧
    check_overlap catDemo 1 5 15 = Except.ok true :=
  ⟨by decide,
   C6_overlaps_iff catDemo 1 prelDemo 20 30 (by decide) (by decide),
   by decide, by decide⟩

/-- Claim C8: the hash router returns `h mod n` for every 32-bit hash value
`h` and partition count `n > 0`, the result always lies below `n`, and a
zero partition count is rejected with `InvalidPartitionCount`. -/
theorem C8_hash_route (h n : Nat) (hh : h < 2 ^ 32) (hn : n < 2 ^ 32) :
    (0 < n → get_hash_part_idx h n = Except.ok (h % n) ∧ h % n < n) ∧
    (n = 0 →
      get_hash_part_idx h n = Except.error PathmanError.InvalidPartitionCount) := by
  constructor
  · intro hpos
    constructor
    · unfold get_hash_part_idx hash_to_part_index
      rw [if_neg (by omega)]
    · exact Nat.mod_lt _ hpos
  · intro h0
    subst h0
    rfl

/-- Witness for C8 at `h = 7`, `n = 3`. -/
theorem C8_hash_route_witness :
    get_hash_part_idx 7 3 = Except.ok (7 % 3) ∧ 7 % 3 < 3 :=
  (C8_hash_route 7 3 (by decide) (by decide)).1 (by decide)

/-- Claim C10: when the relation has no descriptor at all, the
`find_or_create` routing path returns SQL NULL (no typed failure, no
events), while every metadata query (`get_range_by_part_oid`,
`get_range_by_idx`, `get_min_range_value`, `get_max_range_value`,
`check_overlap`) raises the not-partitioned error for the same condition. -/
theorem C10_missing_descriptor
    (catalog : Oid → Option PartRelationInfo)
    (create : Oid → Int → Except PathmanError Oid)
    (parent : Oid) (v : Int) (child : Oid) (idx : Int) (p1 p2 : Int)
    (hcat : catalog parent = none) :
    find_or_create_range_partition catalog create parent v =
      (Except.ok none, []) ∧
    get_range_by_part_oid catalog parent child =
      Except.error PathmanError.NotPartitioned ∧
    get_range_by_idx catalog parent idx =
      Except.error PathmanError.NotPartitioned ∧
    get_min_range_value catalog parent =
      Except.error PathmanError.NotPartitioned ∧
    get_max_range_value catalog parent =
      Except.error PathmanError.NotPartitioned ∧
    check_overlap catalog parent p1 p2 =
      Except.error PathmanError.NotPartitioned := by
  unfold find_or_create_range_partition get_range_by_part_oid
    get_range_by_idx get_min_range_value get_max_range_value check_overlap
  rw [hcat]
  exact ⟨rfl, rfl, rfl, rfl, rfl, rfl⟩

/-- Witness for C10 on the empty catalog. -/
theorem C10_missing_descriptor_witness :
    find_or_create_range_partition catNone createOk 1 5 =
      (Except.ok none, []) ∧
    get_range_by_part_oid catNone 1 100 =
      Except.error PathmanError.NotPartitioned ∧
    get_range_by_idx catNone 1 0 =
      Except.error PathmanError.NotPartitioned ∧
    get_min_range_value catNone 1 =
      Except.error PathmanError.NotPartitioned ∧
    get_max_range_value catNone 1 =
      Except.error PathmanError.NotPartitioned ∧
    check_overlap catNone 1 0 1 =
      Except.error PathmanError.NotPartitioned :=
  C10_missing_descriptor catNone createOk 1 5 100 0 0 1 (by decide)

/-- Claim C1 (refuted; evaluation of the race): two callers racing
`find_or_create(15)` on the same initial gap above ranges `[0,10)` — a
legal schedule in which both probe before either enters the critical
section — result in TWO `create_partitions` delegate calls and receive
DIFFERENT child oids (101 and 102): the re-probe inside the locks reuses
each caller's pre-lock snapshot (source FIXME line 254, "useless
double-checked lock (no new data)"), so caller B never observes caller A's
partition. -/
theorem C1_race_two_creates :
    (race2 1 15 raceSt0).1.create_calls = 2 ∧
    (race2 1 15 raceSt0).2.1 = some 101 ∧
    (race2 1 15 raceSt0).2.2 = some 102 ∧
    (some 101 : Option Oid) ≠ some 102 := by
  refine ⟨rfl, rfl, rfl, by decide⟩

/-- Claim C3 (refuted; evaluation at the failing schedule): when caller B
enters its critical section, a freshly reloaded descriptor of relation 1
already contains an owner (child 101) for value 15, yet B's call — whose
re-probe runs against the stale pre-lock snapshot, exactly as the source
does — misses it and creates child 102 instead of returning 101. -/
theorem C3_stale_reprobe :
    raceStA.catalog 1 = some prelFresh ∧
    find_owner 15 prelFresh.ranges = SearchResult.Found 101 ∧
    (caller_session prelOne 1 15 raceStA).2 = some 102 ∧
    (some 102 : Option Oid) ≠ some 101 := by
  refine ⟨rfl, rfl, rfl, by decide⟩

/-- Claim C4 (counterexample): when the creation delegate fails, the error
propagates (the C `elog(ERROR)` performs a non-local exit before the
`LWLockRelease` calls at lines 273-274 run), and the trace of
`find_or_create_range_partition` contains NO release of either lock —
refuting "both locks are released on every exit path, and the DdlError is
propagated only after both locks have been released". -/
theorem C4_counterexample :
    find_or_create_range_partition catDemo createFail 1 45 =
      (Except.error PathmanError.DdlError,
       [Event.acquire_config, Event.acquire_edit, Event.create_call 1 45]) ∧
    Event.release_config ∉ (find_or_create_range_partition catDemo createFail 1 45).2 ∧
    Event.release_edit ∉ (find_or_create_range_partition catDemo createFail 1 45).2 := by
  refine ⟨by decide, by decide, by decide⟩

/-- Claim C4 (amended): on every path on which `find_or_create` itself
returns a result, every lock it acquired is released before return; but
when the creation delegate fails, the error propagates by non-local exit
and the function releases neither lock — the trace ends at the delegate
call, and release is left to the caller's unwind mechanism. -/
theorem C4_amended_lock_release
    (catalog : Oid → Option PartRelationInfo)
    (create : Oid → Int → Except PathmanError Oid)
    (parent : Oid) (v : Int) :
    ((∃ x, (find_or_create_range_partition catalog create parent v).1 =
        Except.ok x) →
      ((Event.acquire_config ∈
          (find_or_create_range_partition catalog create parent v).2 →
        Event.release_config ∈
          (find_or_create_range_partition catalog create parent v).2) ∧
       (Event.acquire_edit ∈
          (find_or_create_range_partition catalog create parent v).2 →
        Event.release_edit ∈
          (find_or_create_range_partition catalog create parent v).2)))
    ∧ (∀ e, (find_or_create_range_partition catalog create parent v).1 =
          Except.error e →
        (find_or_create_range_partition catalog create parent v).2 =
          [Event.acquire_config, Event.acquire_edit,
           Event.create_call parent v]) := by
  unfold find_or_create_range_partition
  cases hcat : catalog parent with
  | none => simp [hcat]
  | some prel =>
    cases hs : find_owner v prel.ranges with
    | Found c => simp [hcat, hs]
    | Gap => simp [hcat, hs]
    | OutOfRange =>
      cases hc : create parent v with
      | error e => simp [hcat, hs, hc]
      | ok child => simp [hcat, hs, hc]

/-- Witness for the amended C4: at a concrete out-of-range value with a
failing delegate, the trace stops at the delegate call with no releases. -/
theorem C4_amended_lock_release_witness :
    (find_or_create_range_partition catDemo createFail 1 45).2 =
      [Event.acquire_config, Event.acquire_edit, Event.create_call 1 45] :=
  (C4_amended_lock_release catDemo createFail 1 45).2 PathmanError.DdlError
    (by decide)

/-- Claim C5 (refuted; evaluation at the failing inputs): the source guards
its "not partitioned by RANGE" error behind a second, always-false null
test of `prel`, so on a HASH-partitioned relation `get_min_range_value` and
`get_max_range_value` silently return `ranges[0].min` / `ranges[last].max`
instead of failing; and with an empty range set they read the ranges array
out of bounds instead of failing with an empty-partition-set error. -/
theorem C5_dead_strategy_check :
    prelHash.parttype = PartType.PT_HASH ∧
    get_min_range_value catMixed 1 = Except.ok 0 ∧
    get_max_range_value catMixed 1 = Except.ok 10 ∧
    prelEmpty.parttype = PartType.PT_RANGE ∧
    prelEmpty.ranges = [] ∧
    get_min_range_value catMixed 2 = Except.error PathmanError.OutOfBoundsRead ∧
    get_max_range_value catMixed 2 = Except.error PathmanError.OutOfBoundsRead := by
  refine ⟨rfl, by decide, by decide, rfl, rfl, by decide, by decide⟩

/-- Claim C7 (counterexample): on a RANGE descriptor with two entries,
`bounds_at(-2)` fails with `PartitionNotFound`, not `InvalidIndex` — the
source's `abs(idx) >= child_count` check runs before the negative-index
check — refuting "for every negative index other than -1 it fails with
InvalidIndex". -/
theorem C7_counterexample :
    catTwo 1 = some prelTwo ∧
    prelTwo.parttype = PartType.PT_RANGE ∧
    prelTwo.ranges.length = 2 ∧
    get_range_by_idx catTwo 1 (-2) =
      Except.error PathmanError.PartitionNotFound ∧
    (Except.error PathmanError.PartitionNotFound :
        Except PathmanError (Int × Int)) ≠
      Except.error PathmanError.InvalidIndex := by
  refine ⟨by decide, rfl, rfl, by decide, by decide⟩

/-- Claim C7 (amended): `bounds_at` first rejects any index whose absolute
value reaches the child count with `PartitionNotFound` (this covers every
out-of-range positive index AND every negative index with `|idx| >=
child_count`, including `-1` itself when the relation has at most one
partition); among the remaining indices, `-1` returns the same bounds as
`child_count - 1` (which exists once `child_count >= 2`), and any other
negative index fails with `InvalidIndex`. -/
theorem C7_amended_bounds_at
    (catalog : Oid → Option PartRelationInfo) (parent : Oid)
    (prel : PartRelationInfo)
    (hcat : catalog parent = some prel)
    (hR : prel.parttype = PartType.PT_RANGE) :
    (∀ idx : Int, prel.ranges.length ≤ idx.natAbs →
        get_range_by_idx catalog parent idx =
          Except.error PathmanError.PartitionNotFound)
    ∧ (∀ idx : Int, idx < -1 → idx.natAbs < prel.ranges.length →
        get_range_by_idx catalog parent idx =
          Except.error PathmanError.InvalidIndex)
    ∧ (2 ≤ prel.ranges.length →
        get_range_by_idx catalog parent (-1) =
          get_range_by_idx catalog parent ((prel.ranges.length : Int) - 1)) := by
  refine ⟨?_, ?_, ?_⟩
  · intro idx h
    unfold get_range_by_idx
    simp only [hcat]
    rw [if_pos h]
  · intro idx h1 h2
    unfold get_range_by_idx
    simp only [hcat]
    rw [if_neg (by omega), if_neg (by omega), if_pos h1]
  · intro hlen
    have e1 : get_range_by_idx catalog parent (-1) =
        (match prel.ranges.get? (prel.ranges.length - 1) with
         | some r => Except.ok (r.min, r.max)
         | none => Except.error PathmanError.OutOfBoundsRead) := by
      unfold get_range_by_idx
      simp only [hcat]
      rw [if_neg (show ¬ prel.ranges.length ≤ ((-1 : Int)).natAbs by
            have h1 : ((-1 : Int)).natAbs = 1 := rfl
            omega)]
      simp
    have e2 : get_range_by_idx catalog parent ((prel.ranges.length : Int) - 1) =
        (match prel.ranges.get? (prel.ranges.length - 1) with
         | some r => Except.ok (r.min, r.max)
         | none => Except.error PathmanError.OutOfBoundsRead) := by
      unfold get_range_by_idx
      simp only [hcat]
      rw [if_neg (show ¬ prel.ranges.length ≤
            ((prel.ranges.length : Int) - 1).natAbs by omega)]
      rw [if_neg (show ¬ ((prel.ranges.length : Int) - 1) = -1 by omega)]
      rw [if_neg (show ¬ ((prel.ranges.length : Int) - 1) < -1 by omega)]
      rw [show ((prel.ranges.length : Int) - 1).toNat =
            prel.ranges.length - 1 by omega]
    rw [e1, e2]

/-- Witness for the amended C7 on the two-entry descriptor: `-1` agrees
with index `child_count - 1`, and `-3` (absolute value past the count)
fails with `PartitionNotFound`. -/
theorem C7_amended_bounds_at_witness :
    catTwo 1 = some prelTwo ∧
    get_range_by_idx catTwo 1 (-1) =
      get_range_by_idx catTwo 1 ((prelTwo.ranges.length : Int) - 1) ∧
    get_range_by_idx catTwo 1 (-3) =
      Except.error PathmanError.PartitionNotFound :=
  ⟨by decide,
   (C7_amended_bounds_at catTwo 1 prelTwo (by decide) (by decide)).2.2
     (by decide),
   (C7_amended_bounds_at catTwo 1 prelTwo (by decide) (by decide)).1 (-3)
     (by decide)⟩

/-- Claim C9 (counterexample): on the successful creation path the source
releases `load_config_lock` FIRST (line 273) and `edit_partitions_lock`
SECOND (line 274): in the trace the config release strictly precedes the
edit release, i.e. the config lock is released while the edit lock is
still held — refuting "releases edit_lock first and config_lock second". -/
theorem C9_counterexample :
    (find_or_create_range_partition catDemo createOk 1 45).2 =
      [Event.acquire_config, Event.acquire_edit, Event.create_call 1 45,
       Event.release_config, Event.release_edit] ∧
    (find_or_create_range_partition catDemo createOk 1 45).2.indexOf
        Event.release_config <
      (find_or_create_range_partition catDemo createOk 1 45).2.indexOf
        Event.release_edit := by
  refine ⟨by decide, by decide⟩

/-- Claim C9 (amended): on the successful creation path the coordinator
releases `config_lock` first and `edit_lock` second before returning the
new child oid (the source mirrors its acquisition order instead of
reversing it). -/
theorem C9_amended_release_order
    (catalog : Oid → Option PartRelationInfo)
    (create : Oid → Int → Except PathmanError Oid)
    (parent : Oid) (v : Int) (prel : PartRelationInfo) (child : Oid)
    (hcat : catalog parent = some prel)
    (hoor : find_owner v prel.ranges = SearchResult.OutOfRange)
    (hc : create parent v = Except.ok child) :
    find_or_create_range_partition catalog create parent v =
      (Except.ok (some child),
       [Event.acquire_config, Event.acquire_edit, Event.create_call parent v,
        Event.release_config, Event.release_edit]) := by
  unfold find_or_create_range_partition
  simp only [hcat, hoor, hc]

/-- Witness for the amended C9 at value 45 above the running example's
last range. -/
theorem C9_amended_release_order_witness :
    find_or_create_range_partition catDemo createOk 1 45 =
      (Except.ok (some 999),
       [Event.acquire_config, Event.acquire_edit, Event.create_call 1 45,
        Event.release_config, Event.release_edit]) :=
  C9_amended_release_order catDemo createOk 1 45 prelDemo 999
    (by decide) (by decide) (by decide)
